import Mathlib

/-!
Verification of the mcsema instruction lifter (`mcsema/BC/Instruction.cpp`)
and module optimizer (`mcsema/BC/Optimize.cpp`, provided as an unnamed
source part) against the natural-language specification.

The C++ is shallowly embedded: LLVM values produced by the lifter become a
small syntax tree `LVal`, the lifter's member fields (`mem_ref`,
`imm_ref`, `disp_ref` and their `_used` flags) become a `LiftState`
record, and each lifter method becomes a pure function from state and
operand to result and state.  The optimizer's IR rewrites are embedded
over an explicit instruction-list module model further below.
-/

namespace Mcsema

/-- A cross-reference attached to an instruction operand
(`NativeInstructionXref`): a target effective address and an optional
address mask (`mask = 0` models an absent mask, matching the C++
truthiness test `if (cfg_xref->mask)`). -/
structure Xref where
  target_ea : Nat
  mask : Nat
deriving DecidableEq

/-- The address part of a remill memory operand (`remill::Operand::Address`):
base and index register names, the signed displacement field, and whether
the operand is a control-flow target. -/
structure AddrOperand where
  base_reg : String
  index_reg : String
  displacement : Int
  is_cft : Bool
deriving DecidableEq

/-- An immediate operand (`remill::Operand` restricted to the fields read by
`LiftImmediateOperand`): the operand size in bits and the raw immediate
value `op.imm.val`. -/
structure ImmOperand where
  size : Nat
  val : Nat
deriving DecidableEq

/-- Syntax of the LLVM values the lifter produces.  `xref ea` is the value
returned by `LiftXrefInCode(ea)`; `genericAddr`/`genericImm` are the values
produced by the generic (parent-class) remill operand lifters, recorded
with the operand they were invoked on; `add` and `trunc` are the
`IRBuilder` operations `CreateAdd` and `CreateTrunc`. -/
inductive LVal where
  | xref (ea : Nat)
  | genericAddr (op : AddrOperand)
  | genericImm (op : ImmOperand)
  | add (a b : LVal)
  | trunc (width : Nat) (v : LVal)
deriving DecidableEq

/-- The cross-reference fields of one CFG instruction
(`NativeInstruction`): optional memory, immediate and displacement
cross-references. -/
structure CfgInst where
  mem : Option Xref
  imm : Option Xref
  disp : Option Xref
deriving DecidableEq

/-- The mutable per-instruction state of `InstructionLifter`: the three
CFG cross-references, the three resolved reference values, the three
`_used` flags, and the diagnostics emitted so far (`LOG(ERROR)` /
`LOG(WARNING)` messages). -/
structure LiftState where
  cfgMem : Option Xref
  cfgImm : Option Xref
  cfgDisp : Option Xref
  memRef : Option LVal
  immRef : Option LVal
  dispRef : Option LVal
  memRefUsed : Bool
  immRefUsed : Bool
  dispRefUsed : Bool
  diags : List String
deriving DecidableEq

/-- Embeds `InstructionLifter::GetAddress`: resolve a cross-reference to a value,
applying the mask (when non-zero) to the target address before lifting it. -/
def getAddress (cfg_xref : Option Xref) : Option LVal :=
  match cfg_xref with
  | none => none
  | some x => if x.mask ≠ 0 then some (LVal.xref (x.target_ea &&& x.mask))
              else some (LVal.xref x.target_ea)

/-- The C++ `static_cast<uint64_t>` applied to an `int64_t` displacement:
reduction modulo 2^64 of the signed value. -/
def toU64 (i : Int) : Nat := (i % (2 : Int) ^ 64).toNat

/-- Diagnostic text emitted when a memory operand was decoded as an
absolute reference but matches the displacement field. -/
def misclassifiedDiag : String :=
  "IDA probably incorrectly decoded memory operand as an absolute memory " ++
  "reference when it should be treated as a displacement memory reference."

/-- Embeds `InstructionLifter::LiftAddressOperand`, translated branch for branch
from `mcsema/BC/Instruction.cpp`.  Control-flow-target operands go to the
generic parent lifter.  The first branch fires when the operand has no
base and no index register, or base `PC` with no index; the second when it
has no base and no index register, or base `NEXT_PC` with no index; both
substitute the memory reference when present, else the displacement
reference when present, else fall through to the generic path.  The final
branch handles the general base+index+displacement form, zeroing the
displacement and re-adding the reference value. -/
def liftAddressOperand (s : LiftState) (op : AddrOperand) : LVal × LiftState :=
  if op.is_cft then
    (LVal.genericAddr op, s)
  else if (op.base_reg = "" ∧ op.index_reg = "") ∨
          (op.base_reg = "PC" ∧ op.index_reg = "") then
    match s.memRef with
    | some v => (v, { s with memRefUsed := true })
    | none =>
      match s.dispRef with
      | some v => (v, { s with dispRefUsed := true })
      | none => (LVal.genericAddr op, s)
  else if (op.base_reg = "" ∧ op.index_reg = "") ∨
          (op.base_reg = "NEXT_PC" ∧ op.index_reg = "") then
    match s.memRef with
    | some v => (v, { s with memRefUsed := true })
    | none =>
      match s.dispRef with
      | some v => (v, { s with dispRefUsed := true })
      | none => (LVal.genericAddr op, s)
  else
    match s.dispRef with
    | some v =>
      (LVal.add (LVal.genericAddr { op with displacement := 0 }) v,
       { s with dispRefUsed := true })
    | none =>
      match s.memRef, s.cfgMem with
      | some v, some x =>
        if toU64 op.displacement = x.target_ea then
          (LVal.add (LVal.genericAddr { op with displacement := 0 }) v,
           { s with memRefUsed := true, diags := s.diags ++ [misclassifiedDiag] })
        else (LVal.genericAddr op, s)
      | _, _ => (LVal.genericAddr op, s)

/-- The same address-operand lifter with the two structurally duplicated
no-base/PC branches merged into a single branch, following the spec's
description of the merged behavior; used only to compare against
`liftAddressOperand`. -/
def liftAddressOperandMerged (s : LiftState) (op : AddrOperand) : LVal × LiftState :=
  if op.is_cft then
    (LVal.genericAddr op, s)
  else if (op.base_reg = "" ∧ op.index_reg = "") ∨
          (op.base_reg = "PC" ∧ op.index_reg = "") ∨
          (op.base_reg = "NEXT_PC" ∧ op.index_reg = "") then
    match s.memRef with
    | some v => (v, { s with memRefUsed := true })
    | none =>
      match s.dispRef with
      | some v => (v, { s with dispRefUsed := true })
      | none => (LVal.genericAddr op, s)
  else
    match s.dispRef with
    | some v =>
      (LVal.add (LVal.genericAddr { op with displacement := 0 }) v,
       { s with dispRefUsed := true })
    | none =>
      match s.memRef, s.cfgMem with
      | some v, some x =>
        if toU64 op.displacement = x.target_ea then
          (LVal.add (LVal.genericAddr { op with displacement := 0 }) v,
           { s with memRefUsed := true, diags := s.diags ++ [misclassifiedDiag] })
        else (LVal.genericAddr op, s)
      | _, _ => (LVal.genericAddr op, s)

/-- The type of the value held in a lifter reference slot, as an integer
bit width.  Modelled from the spec: `LiftXrefInCode` (outside the provided
sources) produces the materialized address value, which has the
architecture's address width (spec section 4.1); a `CreateTrunc` to width
`w` produces a value of width `w`, and the generic operand lifters produce
values of the operand width. -/
def lvalWidth (addrSize : Nat) : LVal → Nat
  | LVal.xref _ => addrSize
  | LVal.genericAddr _ => addrSize
  | LVal.genericImm op => op.size
  | LVal.add a _ => lvalWidth addrSize a
  | LVal.trunc w _ => w

/-- Diagnostic text for an immediate operand that looks like a missed
cross-reference. -/
def missedXrefDiag : String :=
  "Immediate operand of instruction is a missed cross-reference candidate."

/-- Embeds `InstructionLifter::LiftImmediateOperand`.  Here `addrSize` is
`arch->address_size`; `argWidth` is the bit size of the argument type
(`data_layout.getTypeSizeInBits(arg_type)`); `segPresent ea` models
`ctx.cfg_module->TryGetSegment(ea) != nullptr`.  A failed `CHECK` becomes
an `Except.error`.  Type equality `arg_type != imm_ref->getType()` is
compared through integer bit widths via `lvalWidth`. -/
def liftImmediateOperand (addrSize : Nat) (segPresent : Nat → Bool)
    (s : LiftState) (argWidth : Nat) (op : ImmOperand) :
    Except String (LVal × LiftState) :=
  match s.immRef, s.immRefUsed with
  | some r, false =>
    if argWidth ≤ addrSize then
      if argWidth ≠ lvalWidth addrSize r ∧ argWidth < addrSize then
        Except.ok (LVal.trunc argWidth r,
          { s with immRefUsed := true, immRef := some (LVal.trunc argWidth r) })
      else
        Except.ok (r, { s with immRefUsed := true })
    else
      Except.error
        "Immediate operand size is wider than the architecture pointer size."
  | _, _ =>
    if op.size = addrSize ∧ 4096 ≤ op.val ∧ segPresent op.val then
      (Except.ok (LVal.genericImm op,
        { s with diags := s.diags ++ [missedXrefDiag] }))
    else
      Except.ok (LVal.genericImm op, s)

/-- The status codes returned by `remill::InstructionLifter::LiftIntoBlock`. -/
inductive LiftStatus where
  | liftedInvalidInstruction
  | liftedUnsupportedInstruction
  | liftedInstruction
deriving DecidableEq

/-- The state at the start of `LiftIntoBlock`: cross-references fetched
from the CFG instruction (all null when `ctx.cfg_inst` is null), the three
resolved values via `getAddress`, all used flags false. -/
def initState (cfg : Option CfgInst) : LiftState :=
  match cfg with
  | some ci =>
    { cfgMem := ci.mem, cfgImm := ci.imm, cfgDisp := ci.disp,
      memRef := getAddress ci.mem, immRef := getAddress ci.imm,
      dispRef := getAddress ci.disp,
      memRefUsed := false, immRefUsed := false, dispRefUsed := false,
      diags := [] }
  | none =>
    { cfgMem := none, cfgImm := none, cfgDisp := none,
      memRef := none, immRef := none, dispRef := none,
      memRefUsed := false, immRefUsed := false, dispRefUsed := false,
      diags := [] }

/-- Diagnostic for a memory reference left unused after a successful lift. -/
def unusedMemDiag (ea : Nat) : String :=
  "Unused memory reference operand to " ++ toString ea

/-- Diagnostic for an immediate reference left unused after a successful lift. -/
def unusedImmDiag (ea : Nat) : String :=
  "Unused immediate operand reference to " ++ toString ea

/-- Diagnostic for a displacement reference left unused after a successful lift. -/
def unusedDispDiag (ea : Nat) : String :=
  "Unused displacement operand reference to " ++ toString ea

/-- The diagnostics `LiftIntoBlock` emits after a successful lift: one for
each of the memory, immediate and displacement references that is present
but whose used flag is still false, in that order. -/
def unusedRefDiags (s : LiftState) : List String :=
  (match s.memRef, s.cfgMem, s.memRefUsed with
   | some _, some x, false => [unusedMemDiag x.target_ea]
   | _, _, _ => []) ++
  (match s.immRef, s.cfgImm, s.immRefUsed with
   | some _, some x, false => [unusedImmDiag x.target_ea]
   | _, _, _ => []) ++
  (match s.dispRef, s.cfgDisp, s.dispRefUsed with
   | some _, some x, false => [unusedDispDiag x.target_ea]
   | _, _, _ => [])

/-- Embeds `InstructionLifter::LiftIntoBlock`: fetch the three candidate
cross-references, clear the used flags, delegate to the architecture
semantics (`sem`, the parent-class lift), and, when the status is
`kLiftedInstruction`, log each fetched reference that was never marked
used.  The status returned is the delegate's status. -/
def liftIntoBlock (cfg : Option CfgInst)
    (sem : LiftState → LiftStatus × LiftState) : LiftStatus × LiftState :=
  let s0 := initState cfg
  let r := sem s0
  let st := r.1
  let s1 := r.2
  if st = LiftStatus.liftedInstruction then
    (st, { s1 with diags := s1.diags ++ unusedRefDiags s1 })
  else
    (st, s1)

/-! ## ISEL discovery and removal (`FindISELs` / `RemoveISELs`) -/

/-- A module-level function as seen by `FindISELs`: a name and the list of
its parameter type names (LLVM types compared by identity are modelled as
opaque strings). -/
structure SemFunc where
  name : String
  params : List String
deriving DecidableEq

/-- A global variable as seen by `FindISELs` / `RemoveISELs`: a numeric
identity, whether its linkage is `InternalLinkage`, the function its
initializer resolves to after `stripPointerCasts` (if the global has an
initializer that is a function pointer), the global ids its initializer
references, and the number of uses of this global from places other than
global initializers (instruction operands); those uses are not affected
by erasing globals. -/
structure GVar where
  id : Nat
  isInternal : Bool
  initFunc : Option String
  initRefs : List Nat
  extUses : Nat
deriving DecidableEq

/-- A module restricted to what the ISEL passes inspect. -/
structure IModule where
  funcs : List SemFunc
  globals : List GVar
deriving DecidableEq

/-- Embeds `FindISELs`: when `__remill_basic_block` cannot be found, log
and return no ISELs; otherwise collect every global whose initializer is a
function whose first two parameter types equal the basic-block function's
first two parameter types. -/
def findISELs (m : IModule) : List Nat :=
  match m.funcs.find? (fun f => f.name = "__remill_basic_block") with
  | none => []
  | some bb =>
    let memTy := bb.params.getD 0 ""
    let stateTy := bb.params.getD 1 ""
    (m.globals.filter (fun g =>
      match g.initFunc with
      | none => false
      | some fn =>
        match m.funcs.find? (fun f => f.name = fn) with
        | none => false
        | some sem =>
          memTy == sem.params.getD 0 "" && stateTy == sem.params.getD 1 "")).map
      (fun g => g.id)

/-- Number of uses of the global with id `gid` visible in the module:
initializer references from the remaining globals plus the instruction
uses recorded on the global itself (`llvm::Value::getNumUses`). -/
def numUsesOf (m : List GVar) (gid : Nat) (extUses : Nat) : Nat :=
  extUses + (m.map (fun h => h.initRefs.count gid)).sum

/-- Set the linkage of the global `gid` to internal
(`setLinkage(InternalLinkage)`). -/
def setLinkage (m : List GVar) (gid : Nat) : List GVar :=
  m.map (fun g => if g.id = gid then { g with isInternal := true } else g)

/-- Erase the global `gid` from the module (`eraseFromParent`). -/
def eraseGlobal (m : List GVar) (gid : Nat) : List GVar :=
  m.filter (fun g => g.id ≠ gid)

/-- One pass of the loop body of `RemoveISELs`: for each ISEL in order,
set its linkage to internal, then erase it when it has at most one
remaining use, else carry it into `next_isels`.  Returns the rewritten
module and `next_isels`. -/
def removeISELsPass : List GVar → List Nat → List GVar × List Nat
  | m, [] => (m, [])
  | m, gid :: rest =>
    let m1 := setLinkage m gid
    match m1.find? (fun g => g.id = gid) with
    | some g =>
      if numUsesOf m1 gid g.extUses ≤ 1 then
        removeISELsPass (eraseGlobal m1 gid) rest
      else
        let r := removeISELsPass m1 rest
        (r.1, gid :: r.2)
    | none => removeISELsPass m1 rest

/-- Embeds `RemoveISELs`: `while (isels.size())` repeat the pass, swapping
in `next_isels` each time.  The C++ loop has no other exit; the fuel
argument bounds how many passes we are willing to unfold, and `none`
means the loop had still not exited after `fuel` passes. -/
def removeISELs (fuel : Nat) (m : List GVar) (isels : List Nat) :
    Option (List GVar) :=
  match fuel with
  | 0 => if isels = [] then some m else none
  | f + 1 =>
    if isels = [] then some m
    else
      let r := removeISELsPass m isels
      removeISELs f r.1 r.2

/-- A single ISEL global with two instruction uses, which no erasure of
other globals can ever drop. -/
def stuckIselModule : List GVar :=
  [{ id := 1, isInternal := false, initFunc := some "sem", initRefs := [],
     extUses := 2 }]

/-- The same global after the first pass has set its linkage to internal. -/
def stuckIselModuleInternal : List GVar :=
  [{ id := 1, isInternal := true, initFunc := some "sem", initRefs := [],
     extUses := 2 }]

/-! ## IR model for the lowering passes (`ReplaceBarrier`, `ReplaceMemReadOp`,
`ReplaceMemWriteOp`, `LowerMemOps`, `ReplaceUndefIntrinsic`,
`RemoveUndefFuncCalls`) -/

/-- LLVM types, restricted to what the lowering passes distinguish:
integer widths, the three float widths (`isX86_FP80Ty` picks out `f80`),
pointers, the opaque memory-state type, and void. -/
inductive Ty where
  | i (bits : Nat)
  | f32
  | f64
  | f80
  | ptr (pointee : Ty)
  | memT
  | voidT
deriving DecidableEq

/-- An LLVM value operand: the result of the instruction with a given id,
an opaque argument, the address of a named function or global, an
undefined value of a type, or an integer constant. -/
inductive V where
  | inst (id : Nat)
  | arg (n : Nat)
  | globalRef (name : String)
  | undef (t : Ty)
  | intConst (n : Int)
deriving DecidableEq

/-- An instruction body: the opcodes the lowering passes create or
classify.  `icmp` stands for any `llvm::CmpInst`; `intToPtr`, `fptrunc`,
`fpext` and `bitcast` are the `llvm::CastInst` subclasses in play;
`genericOp` is any other instruction (with a result type and operands). -/
inductive Op where
  | call (callee : String) (retTy : Ty) (args : List V)
  | intToPtr (t : Ty) (a : V)
  | load (t : Ty) (p : V)
  | fptrunc (t : Ty) (a : V)
  | fpext (t : Ty) (a : V)
  | store (v : V) (p : V)
  | icmp (a b : V)
  | bitcast (t : Ty) (a : V)
  | genericOp (t : Ty) (args : List V)
deriving DecidableEq

/-- An instruction: an identity (standing for the `llvm::Instruction`
pointer) and its body.  The module-wide instruction stream is a list of
these; the passes under verification never consult block boundaries. -/
structure LInst where
  id : Nat
  op : Op
deriving DecidableEq

/-- A function symbol: name, return type, and whether it is a pure
declaration (`isDeclaration`). -/
structure LFunc where
  name : String
  retTy : Ty
  isDecl : Bool
deriving DecidableEq

/-- A module as seen by the lowering passes: its function symbols and its
instruction stream. -/
structure LModule where
  funcs : List LFunc
  insts : List LInst
deriving DecidableEq

/-- The operand list of an instruction body. -/
def Op.operands : Op → List V
  | call _ _ args => args
  | intToPtr _ a => [a]
  | load _ p => [p]
  | fptrunc _ a => [a]
  | fpext _ a => [a]
  | store v p => [v, p]
  | icmp a b => [a, b]
  | bitcast _ a => [a]
  | genericOp _ args => args

/-- Rewrite every operand of an instruction body. -/
def Op.mapOperands (f : V → V) : Op → Op
  | call n t args => call n t (args.map f)
  | intToPtr t a => intToPtr t (f a)
  | load t p => load t (f p)
  | fptrunc t a => fptrunc t (f a)
  | fpext t a => fpext t (f a)
  | store v p => store (f v) (f p)
  | icmp a b => icmp (f a) (f b)
  | bitcast t a => bitcast t (f a)
  | genericOp t args => genericOp t (args.map f)

/-- The result type of an instruction (`llvm::Value::getType`). -/
def Op.resultTy : Op → Ty
  | call _ t _ => t
  | intToPtr t _ => t
  | load t _ => t
  | fptrunc t _ => t
  | fpext t _ => t
  | store _ _ => Ty.voidT
  | icmp _ _ => Ty.i 1
  | bitcast t _ => t
  | genericOp t _ => t

/-- Classification `llvm::isa<llvm::CmpInst>`. -/
def Op.isCmpInst : Op → Bool
  | icmp _ _ => true
  | _ => false

/-- Classification `llvm::isa<llvm::CastInst>`. -/
def Op.isCastInst : Op → Bool
  | intToPtr _ _ => true
  | fptrunc _ _ => true
  | fpext _ _ => true
  | bitcast _ _ => true
  | _ => false

/-- Classification `llvm::dyn_cast<llvm::StoreInst>`. -/
def Op.isStoreInst : Op → Bool
  | store _ _ => true
  | _ => false

/-- Whether this instruction is a call whose called function is `name`
(the test performed by `CallersOf`). -/
def LInst.isCallTo (name : String) (c : LInst) : Bool :=
  match c.op with
  | Op.call callee _ _ => callee == name
  | _ => false

/-- Substitute `new` for `old` in a single operand. -/
def substV (old new v : V) : V := if v = old then new else v

/-- Embeds `llvm::Value::replaceAllUsesWith` over the instruction stream. -/
def rauwInsts (old new : V) (insts : List LInst) : List LInst :=
  insts.map (fun c => { c with op := c.op.mapOperands (substV old new) })

/-- The ids of the instructions `CallersOf` collects for a function name. -/
def callerIds (name : String) (insts : List LInst) : List Nat :=
  (insts.filter (LInst.isCallTo name)).map (fun c => c.id)

/-- Fetch operand `k` of the (live) instruction with id `i`
(`getArgOperand(k)` on a call instruction). -/
def getArg (insts : List LInst) (i k : Nat) : V :=
  match insts.find? (fun c => c.id = i) with
  | some c => c.op.operands.getD k (V.intConst 0)
  | none => V.intConst 0

/-- Number of uses of the function named `name` in the instruction
stream: each call to it plus each operand holding its address
(`llvm::Value::getNumUses` on the function). -/
def opFuncUses (name : String) (o : Op) : Nat :=
  (match o with
   | Op.call callee _ _ => if callee = name then 1 else 0
   | _ => 0) +
  o.operands.count (V.globalRef name)

/-- Total uses of a function name over the stream. -/
def numFuncUses (name : String) (insts : List LInst) : Nat :=
  (insts.map (fun c => opFuncUses name c.op)).sum

/-- Embeds the pointer-level `RemoveFunction`: erase the function symbol
only when it has no remaining uses (`!func->hasNUsesOrMore(1)`). -/
def removeFunctionIfUnused (name : String) (m : LModule) : LModule :=
  if numFuncUses name m.insts = 0 then
    { m with funcs := m.funcs.filter (fun f => f.name ≠ name) }
  else m

/-- Argument position of the memory-state pointer
(`remill::kMemoryPointerArgNum`). -/
def kMemoryPointerArgNum : Nat := 0

/-- The caller loop of `ReplaceBarrier`: for each collected call, replace
all its uses with its memory-state argument, then erase it. -/
def barrierLoop : List Nat → List LInst → List LInst
  | [], insts => insts
  | i :: rest, insts =>
    let memPtr := getArg insts i kMemoryPointerArgNum
    let insts1 := rauwInsts (V.inst i) memPtr insts
    let insts2 := insts1.filter (fun c => c.id ≠ i)
    barrierLoop rest insts2

/-- Embeds `ReplaceBarrier`: nothing to do when the function is absent; a
fatal `CHECK` failure when it is present with a body; otherwise forward
each call to its memory-state argument and erase the calls. -/
def replaceBarrier (name : String) (m : LModule) : Except String LModule :=
  match m.funcs.find? (fun f => f.name = name) with
  | none => Except.ok m
  | some f =>
    if f.isDecl then
      Except.ok { m with insts := barrierLoop (callerIds name m.insts) m.insts }
    else
      Except.error ("Cannot lower already implemented memory intrinsic " ++ name)

/-- The six ordering-barrier intrinsics, in the order `OptimizeModule`
lowers them. -/
def barrierNames : List String :=
  ["__remill_barrier_load_load", "__remill_barrier_load_store",
   "__remill_barrier_store_load", "__remill_barrier_store_store",
   "__remill_barrier_atomic_begin", "__remill_barrier_atomic_end"]

/-- The barrier-lowering tail of `OptimizeModule`: the six `ReplaceBarrier`
calls in source order. -/
def replaceBarriers (m : LModule) : Except String LModule :=
  barrierNames.foldlM (fun acc n => replaceBarrier n acc) m

/-- One caller step of `ReplaceMemReadOp`: build `inttoptr` of the address
argument and a `load`, plus an `fptrunc` back to the intrinsic return
type for the 80-bit float case, insert them before the call, and replace
all uses of the call with the final value.  `next` supplies fresh
instruction identities. -/
def lowerReadOne (valTy retTy : Ty) (acc : List LInst × Nat) (i : Nat) :
    List LInst × Nat :=
  let insts := acc.1
  let next := acc.2
  let addr := getArg insts i 1
  let ptrI : LInst := { id := next, op := Op.intToPtr (Ty.ptr valTy) addr }
  let loadI : LInst := { id := next + 1, op := Op.load valTy (V.inst next) }
  let newIs : List LInst :=
    if valTy = Ty.f80 then
      [ptrI, loadI, { id := next + 2, op := Op.fptrunc retTy (V.inst (next + 1)) }]
    else
      [ptrI, loadI]
  let resVal : V :=
    if valTy = Ty.f80 then V.inst (next + 2) else V.inst (next + 1)
  let insts1 := insts.flatMap (fun c => if c.id = i then newIs ++ [c] else [c])
  (rauwInsts (V.inst i) resVal insts1, next + newIs.length)

/-- Embeds `ReplaceMemReadOp`: skip an absent intrinsic, abort on one with
a body, otherwise lower each call into a load (first loop), erase the
calls (second loop), and remove the declaration when it is unused. -/
def replaceMemReadOp (name : String) (valTy : Ty) (mn : LModule × Nat) :
    Except String (LModule × Nat) :=
  let m := mn.1
  match m.funcs.find? (fun f => f.name = name) with
  | none => Except.ok mn
  | some f =>
    if f.isDecl then
      let ids := callerIds name m.insts
      let r := ids.foldl (lowerReadOne valTy f.retTy) (m.insts, mn.2)
      let insts2 := r.1.filter (fun c => ¬ ids.contains c.id)
      Except.ok (removeFunctionIfUnused name { funcs := m.funcs, insts := insts2 },
                 r.2)
    else
      Except.error ("Cannot lower already implemented memory intrinsic " ++ name)

/-- One caller step of `ReplaceMemWriteOp`: build `inttoptr` of the
address argument and a `store` of the value argument (extended to 80 bits
first in the 80-bit float case), insert them before the call, and replace
all uses of the call with its memory-state argument. -/
def lowerWriteOne (valTy : Ty) (acc : List LInst × Nat) (i : Nat) :
    List LInst × Nat :=
  let insts := acc.1
  let next := acc.2
  let memPtr := getArg insts i 0
  let addr := getArg insts i 1
  let val := getArg insts i 2
  let ptrI : LInst := { id := next, op := Op.intToPtr (Ty.ptr valTy) addr }
  let newIs : List LInst :=
    if valTy = Ty.f80 then
      [ptrI, { id := next + 1, op := Op.fpext valTy val },
       { id := next + 2, op := Op.store (V.inst (next + 1)) (V.inst next) }]
    else
      [ptrI, { id := next + 1, op := Op.store val (V.inst next) }]
  let insts1 := insts.flatMap (fun c => if c.id = i then newIs ++ [c] else [c])
  (rauwInsts (V.inst i) memPtr insts1, next + newIs.length)

/-- Embeds `ReplaceMemWriteOp`, with the same structure as the read case. -/
def replaceMemWriteOp (name : String) (valTy : Ty) (mn : LModule × Nat) :
    Except String (LModule × Nat) :=
  let m := mn.1
  match m.funcs.find? (fun f => f.name = name) with
  | none => Except.ok mn
  | some f =>
    if f.isDecl then
      let ids := callerIds name m.insts
      let r := ids.foldl (lowerWriteOne valTy) (m.insts, mn.2)
      let insts2 := r.1.filter (fun c => ¬ ids.contains c.id)
      Except.ok (removeFunctionIfUnused name { funcs := m.funcs, insts := insts2 },
                 r.2)
    else
      Except.error ("Cannot lower already implemented memory intrinsic " ++ name)

/-- The memory intrinsics `LowerMemOps` lowers, in source order: the flag
is `true` for a read intrinsic and `false` for a write intrinsic, paired
with the in-memory value type passed at the call site in the source. -/
def memOpsOrder : List (Bool × String × Ty) :=
  [(true, "__remill_read_memory_8", Ty.i 8),
   (true, "__remill_read_memory_16", Ty.i 16),
   (true, "__remill_read_memory_32", Ty.i 32),
   (true, "__remill_read_memory_64", Ty.i 64),
   (true, "__remill_read_memory_f32", Ty.f32),
   (true, "__remill_read_memory_f64", Ty.f64),
   (false, "__remill_write_memory_8", Ty.i 8),
   (false, "__remill_write_memory_16", Ty.i 16),
   (false, "__remill_write_memory_32", Ty.i 32),
   (false, "__remill_write_memory_64", Ty.i 64),
   (false, "__remill_write_memory_f32", Ty.f32),
   (false, "__remill_write_memory_f64", Ty.f64),
   (true, "__remill_read_memory_f80", Ty.f80),
   (false, "__remill_write_memory_f80", Ty.f80)]

/-- Embeds `LowerMemOps`: the fourteen `ReplaceMemReadOp` /
`ReplaceMemWriteOp` calls in source order. -/
def lowerMemOps (mn : LModule × Nat) : Except String (LModule × Nat) :=
  memOpsOrder.foldlM
    (fun acc e =>
      if e.1 then replaceMemReadOp e.2.1 e.2.2 acc
      else replaceMemWriteOp e.2.1 e.2.2 acc) mn

/-- The ids of the live instructions whose operands mention `v`
(`llvm::Value::users`). -/
def usersOf (insts : List LInst) (v : V) : List Nat :=
  (insts.filter (fun c => c.op.operands.contains v)).map (fun c => c.id)

/-- The first loop of `ReplaceUndefIntrinsic`: for each call to the
intrinsic, record its users into the work list, replace all its uses with
an undefined value of the intrinsic's return type, and delete the call. -/
def replaceCallsLoop (retTy : Ty) :
    List Nat → List LInst → List Nat → List LInst × List Nat
  | [], insts, work => (insts, work)
  | i :: rest, insts, work =>
    let us := usersOf insts (V.inst i)
    let insts1 := rauwInsts (V.inst i) (V.undef retTy) insts
    let insts2 := insts1.filter (fun c => c.id ≠ i)
    replaceCallsLoop retTy rest insts2 (work ++ us)

/-- The body of the undefined-value propagation loop for one work-list
instruction: a comparison or cast contributes its users to the next work
list and is replaced by an undefined value of its own result type; a
store is recorded as dead; anything else is ignored.  The `std::set` work
list is modelled as a list; duplicates only repeat idempotent rewrites.
The accumulator is (stream, next work list, dead stores). -/
def propagateOne (acc : List LInst × List Nat × List Nat) (i : Nat) :
    List LInst × List Nat × List Nat :=
  match acc.1.find? (fun c => c.id = i) with
  | some c =>
    if c.op.isCmpInst || c.op.isCastInst then
      (rauwInsts (V.inst i) (V.undef c.op.resultTy) acc.1,
       acc.2.1 ++ usersOf acc.1 (V.inst i), acc.2.2)
    else if c.op.isStoreInst then (acc.1, acc.2.1, acc.2.2 ++ [i])
    else acc
  | none => acc

/-- One pass of the propagation loop over the whole work list. -/
def propagateStep (insts : List LInst) (work : List Nat) (dead : List Nat) :
    List LInst × List Nat × List Nat :=
  work.foldl propagateOne (insts, [], dead)

/-- The `while (work_list.size())` propagation loop of
`ReplaceUndefIntrinsic`.  The fuel bounds the number of passes unfolded;
in SSA form every user has a strictly larger id than its definition, so
the minimum id in the frontier strictly grows each pass and
`maxIdOf insts + 2` passes always reach the empty work list. -/
def propagateUndef : Nat → List LInst → List Nat → List Nat →
    List LInst × List Nat
  | 0, insts, _, dead => (insts, dead)
  | fuel + 1, insts, work, dead =>
    if work.isEmpty then (insts, dead)
    else
      let r := propagateStep insts work dead
      propagateUndef fuel r.1 r.2.1 r.2.2

/-- An upper bound on the instruction identities in a stream. -/
def maxIdOf (insts : List LInst) : Nat :=
  insts.foldl (fun a c => max a c.id) 0

/-- Embeds `ReplaceUndefIntrinsic`: replace the calls, propagate the
undefined values, then erase every store the propagation reached. -/
def replaceUndefIntrinsic (f : LFunc) (insts : List LInst) : List LInst :=
  let r := replaceCallsLoop f.retTy (callerIds f.name insts) insts []
  let p := propagateUndef (maxIdOf r.1 + 2) r.1 r.2 []
  p.1.filter (fun c => ¬ p.2.contains c.id)

/-- The six undefined-value intrinsics, in the order `RemoveUndefFuncCalls`
processes them. -/
def undefFuncNames : List String :=
  ["__remill_undefined_8", "__remill_undefined_16", "__remill_undefined_32",
   "__remill_undefined_64", "__remill_undefined_f32", "__remill_undefined_f64"]

/-- Embeds `RemoveUndefFuncCalls`: for each undefined-value intrinsic
present in the module, run `ReplaceUndefIntrinsic` and then remove its
declaration when it has no remaining uses. -/
def removeUndefFuncCalls (m : LModule) : LModule :=
  undefFuncNames.foldl
    (fun acc name =>
      match acc.funcs.find? (fun f => f.name = name) with
      | none => acc
      | some f =>
        removeFunctionIfUnused name
          { funcs := acc.funcs, insts := replaceUndefIntrinsic f acc.insts })
    m

/-! ## Theorems -/

/-- C10: the branch of `LiftAddressOperand` matched when the base register
is `PC` with an empty index register and the branch matched when it is
`NEXT_PC` with an empty index register compute identical results, so the
lifter's output on every state and operand is unchanged when the two
structurally duplicated branches are merged into one. -/
theorem c10_duplicate_branches_equivalent (s : LiftState) (op : AddrOperand) :
    liftAddressOperand s op = liftAddressOperandMerged s op := by
  unfold liftAddressOperand liftAddressOperandMerged
  by_cases h1 : op.is_cft
  · simp [h1]
  · simp only [h1, if_false, Bool.false_eq_true]
    by_cases hA : op.base_reg = "" ∧ op.index_reg = ""
    · simp [hA]
    · by_cases hB : op.base_reg = "PC" ∧ op.index_reg = ""
      · simp [hA, hB]
      · by_cases hC : op.base_reg = "NEXT_PC" ∧ op.index_reg = ""
        · simp [hA, hB, hC]
        · simp [hA, hB, hC]

/-- C1 counterexample: with a memory reference present but already marked
used and an unused displacement reference present, the no-base/no-index
branch of `LiftAddressOperand` still substitutes the memory reference
(the code never consults the used flags), rather than the displacement
reference the claim calls for. -/
theorem c1_counterexample :
    (liftAddressOperand
      { cfgMem := some ⟨4096, 0⟩, cfgImm := none, cfgDisp := some ⟨8192, 0⟩,
        memRef := some (LVal.xref 4096), immRef := none,
        dispRef := some (LVal.xref 8192),
        memRefUsed := true, immRefUsed := false, dispRefUsed := false,
        diags := [] }
      { base_reg := "", index_reg := "", displacement := 0,
        is_cft := false }).1 = LVal.xref 4096 ∧
    LVal.xref 4096 ≠ LVal.xref 8192 := by
  exact ⟨rfl, by decide⟩

/-- C1 (amended): for a data memory operand with no base and no index
register, or base register `PC` with no index register, the lifter
substitutes the resolved memory cross-reference whenever one is present
(regardless of its used flag), otherwise the resolved displacement
cross-reference whenever one is present (regardless of its used flag),
and only otherwise falls through to the generic lifting path. -/
theorem c1_amended (s : LiftState) (op : AddrOperand)
    (hcft : op.is_cft = false)
    (hbr : (op.base_reg = "" ∧ op.index_reg = "") ∨
           (op.base_reg = "PC" ∧ op.index_reg = "")) :
    (∀ v, s.memRef = some v →
      liftAddressOperand s op = (v, { s with memRefUsed := true })) ∧
    (s.memRef = none → ∀ v, s.dispRef = some v →
      liftAddressOperand s op = (v, { s with dispRefUsed := true })) ∧
    (s.memRef = none → s.dispRef = none →
      liftAddressOperand s op = (LVal.genericAddr op, s)) := by
  refine ⟨?_, ?_, ?_⟩
  · intro v hv
    unfold liftAddressOperand
    simp [hcft, hbr, hv]
  · intro hm v hv
    unfold liftAddressOperand
    simp [hcft, hbr, hm, hv]
  · intro hm hd
    unfold liftAddressOperand
    simp [hcft, hbr, hm, hd]

/-- C1 witness: a concrete run through each case of the amended claim. -/
theorem c1_witness :
    liftAddressOperand
      { cfgMem := some ⟨4096, 0⟩, cfgImm := none, cfgDisp := none,
        memRef := some (LVal.xref 4096), immRef := none, dispRef := none,
        memRefUsed := false, immRefUsed := false, dispRefUsed := false,
        diags := [] }
      { base_reg := "PC", index_reg := "", displacement := 8,
        is_cft := false } =
    (LVal.xref 4096,
     { cfgMem := some ⟨4096, 0⟩, cfgImm := none, cfgDisp := none,
       memRef := some (LVal.xref 4096), immRef := none, dispRef := none,
       memRefUsed := true, immRefUsed := false, dispRefUsed := false,
       diags := [] }) :=
  (c1_amended _ _ rfl (Or.inr ⟨rfl, rfl⟩)).1 (LVal.xref 4096) rfl

/-- C3: for a general base+index+displacement operand with no displacement
reference and a memory reference whose target address equals the
instruction's raw displacement field (cast to unsigned 64-bit), the lifter
emits the misclassification diagnostic, marks the memory reference used,
and returns the generic dynamic address of the displacement-zeroed operand
plus the memory-reference value; that result value is identical to what
the lifter produces when the same value is presented as a displacement
reference instead. -/
theorem c3_misclassified_absolute_reference (s : LiftState) (op : AddrOperand)
    (v : LVal) (x : Xref)
    (hcft : op.is_cft = false)
    (hb1 : ¬ ((op.base_reg = "" ∧ op.index_reg = "") ∨
              (op.base_reg = "PC" ∧ op.index_reg = "")))
    (hb2 : ¬ (op.base_reg = "NEXT_PC" ∧ op.index_reg = ""))
    (hdisp : s.dispRef = none)
    (hmem : s.memRef = some v)
    (hcfg : s.cfgMem = some x)
    (heq : toU64 op.displacement = x.target_ea) :
    liftAddressOperand s op =
      (LVal.add (LVal.genericAddr { op with displacement := 0 }) v,
       { s with memRefUsed := true,
                diags := s.diags ++ [misclassifiedDiag] }) ∧
    (liftAddressOperand s op).1 =
      (liftAddressOperand { s with dispRef := some v } op).1 := by
  have hb2' : ¬ ((op.base_reg = "" ∧ op.index_reg = "") ∨
                 (op.base_reg = "NEXT_PC" ∧ op.index_reg = "")) := by
    intro h
    exact h.elim (fun hc => hb1 (Or.inl hc)) hb2
  constructor
  · unfold liftAddressOperand
    simp [hcft, hb1, hb2', hdisp, hmem, hcfg, heq]
  · unfold liftAddressOperand
    simp [hcft, hb1, hb2', hdisp, hmem, hcfg, heq]

/-- C3 witness: a concrete misclassified absolute reference, as in
`mov rax, [0x4010 + rdi]` where the disassembler attached a memory
reference to `0x4010`. -/
theorem c3_witness :
    liftAddressOperand
      { cfgMem := some ⟨16400, 0⟩, cfgImm := none, cfgDisp := none,
        memRef := some (LVal.xref 16400), immRef := none, dispRef := none,
        memRefUsed := false, immRefUsed := false, dispRefUsed := false,
        diags := [] }
      { base_reg := "RAX", index_reg := "RDI", displacement := 16400,
        is_cft := false } =
    (LVal.add
      (LVal.genericAddr
        { base_reg := "RAX", index_reg := "RDI", displacement := 0,
          is_cft := false })
      (LVal.xref 16400),
     { cfgMem := some ⟨16400, 0⟩, cfgImm := none, cfgDisp := none,
       memRef := some (LVal.xref 16400), immRef := none, dispRef := none,
       memRefUsed := true, immRefUsed := false, dispRefUsed := false,
       diags := [misclassifiedDiag] }) :=
  (c3_misclassified_absolute_reference _ _ (LVal.xref 16400) ⟨16400, 0⟩
    rfl (by decide) (by decide) rfl rfl rfl (by decide)).1

/-- C7: substituting an unused immediate cross-reference truncates the
reference value to the operand width exactly when that width is strictly
narrower than the architecture address width, is the identity when the
operand width equals the address width, and is a fatal error (failed
`CHECK`) when the operand width exceeds the address width. -/
theorem c7_immediate_truncation (addrSize : Nat) (segPresent : Nat → Bool)
    (s : LiftState) (argWidth : Nat) (op : ImmOperand) (ea : Nat)
    (himm : s.immRef = some (LVal.xref ea))
    (hused : s.immRefUsed = false) :
    (argWidth < addrSize →
      liftImmediateOperand addrSize segPresent s argWidth op =
        Except.ok (LVal.trunc argWidth (LVal.xref ea),
          { s with immRefUsed := true,
                   immRef := some (LVal.trunc argWidth (LVal.xref ea)) })) ∧
    (argWidth = addrSize →
      liftImmediateOperand addrSize segPresent s argWidth op =
        Except.ok (LVal.xref ea, { s with immRefUsed := true })) ∧
    (addrSize < argWidth →
      liftImmediateOperand addrSize segPresent s argWidth op =
        Except.error
          "Immediate operand size is wider than the architecture pointer size.") := by
  refine ⟨?_, ?_, ?_⟩
  · intro hlt
    unfold liftImmediateOperand
    simp [himm, hused, Nat.le_of_lt hlt, lvalWidth, Nat.ne_of_lt hlt, hlt]
  · intro heqw
    subst heqw
    unfold liftImmediateOperand
    simp [himm, hused, lvalWidth]
  · intro hgt
    unfold liftImmediateOperand
    simp [himm, hused, Nat.not_le_of_lt hgt]

/-- C7 witness: concrete substitutions at widths 32 (truncated), 64
(identity) and 128 (fatal) against a 64-bit address size. -/
theorem c7_witness :
    (liftImmediateOperand 64 (fun _ => false)
      { cfgMem := none, cfgImm := some ⟨16400, 0⟩, cfgDisp := none,
        memRef := none, immRef := some (LVal.xref 16400), dispRef := none,
        memRefUsed := false, immRefUsed := false, dispRefUsed := false,
        diags := [] } 32 ⟨32, 16400⟩ =
      Except.ok (LVal.trunc 32 (LVal.xref 16400),
        { cfgMem := none, cfgImm := some ⟨16400, 0⟩, cfgDisp := none,
          memRef := none, immRef := some (LVal.trunc 32 (LVal.xref 16400)),
          dispRef := none,
          memRefUsed := false, immRefUsed := true, dispRefUsed := false,
          diags := [] })) ∧
    (liftImmediateOperand 64 (fun _ => false)
      { cfgMem := none, cfgImm := some ⟨16400, 0⟩, cfgDisp := none,
        memRef := none, immRef := some (LVal.xref 16400), dispRef := none,
        memRefUsed := false, immRefUsed := false, dispRefUsed := false,
        diags := [] } 64 ⟨64, 16400⟩ =
      Except.ok (LVal.xref 16400,
        { cfgMem := none, cfgImm := some ⟨16400, 0⟩, cfgDisp := none,
          memRef := none, immRef := some (LVal.xref 16400), dispRef := none,
          memRefUsed := false, immRefUsed := true, dispRefUsed := false,
          diags := [] })) ∧
    (liftImmediateOperand 64 (fun _ => false)
      { cfgMem := none, cfgImm := some ⟨16400, 0⟩, cfgDisp := none,
        memRef := none, immRef := some (LVal.xref 16400), dispRef := none,
        memRefUsed := false, immRefUsed := false, dispRefUsed := false,
        diags := [] } 128 ⟨128, 16400⟩ =
      Except.error
        "Immediate operand size is wider than the architecture pointer size.") :=
  ⟨(c7_immediate_truncation 64 (fun _ => false) _ 32 ⟨32, 16400⟩ 16400
      rfl rfl).1 (by decide),
   (c7_immediate_truncation 64 (fun _ => false) _ 64 ⟨64, 16400⟩ 16400
      rfl rfl).2.1 rfl,
   (c7_immediate_truncation 64 (fun _ => false) _ 128 ⟨128, 16400⟩ 16400
      rfl rfl).2.2 (by decide)⟩

/-- C9: after delegating to the architecture semantics, `LiftIntoBlock`
returns exactly the delegate's status; on a successful lift it appends one
diagnostic for each fetched cross-reference whose used flag is still
false (memory, immediate, displacement, in that order) and changes
nothing else of the delegate's state, and on an unsuccessful lift it
returns the delegate's state unchanged. -/
theorem c9_unused_reference_diagnostics (cfg : Option CfgInst)
    (sem : LiftState → LiftStatus × LiftState) :
    (liftIntoBlock cfg sem).1 = (sem (initState cfg)).1 ∧
    ((sem (initState cfg)).1 = LiftStatus.liftedInstruction →
      (liftIntoBlock cfg sem).2 =
        { (sem (initState cfg)).2 with
          diags := (sem (initState cfg)).2.diags ++
                   unusedRefDiags (sem (initState cfg)).2 }) ∧
    ((sem (initState cfg)).1 ≠ LiftStatus.liftedInstruction →
      (liftIntoBlock cfg sem).2 = (sem (initState cfg)).2) := by
  refine ⟨?_, ?_, ?_⟩ <;>
    · unfold liftIntoBlock
      by_cases h : (sem (initState cfg)).1 = LiftStatus.liftedInstruction <;>
        simp [h]

/-- C9 witness: a successful delegate lift that leaves the memory
reference unused produces the unused-memory-reference diagnostic and the
status is still the delegate's success status. -/
theorem c9_witness :
    (liftIntoBlock
        (some { mem := some ⟨16400, 0⟩, imm := none, disp := none })
        (fun s => (LiftStatus.liftedInstruction, s))).1 =
      LiftStatus.liftedInstruction ∧
    (liftIntoBlock
        (some { mem := some ⟨16400, 0⟩, imm := none, disp := none })
        (fun s => (LiftStatus.liftedInstruction, s))).2 =
      { initState (some { mem := some ⟨16400, 0⟩, imm := none, disp := none }) with
        diags := [unusedMemDiag 16400] } := by
  have h := c9_unused_reference_diagnostics
    (some { mem := some ⟨16400, 0⟩, imm := none, disp := none })
    (fun s => (LiftStatus.liftedInstruction, s))
  refine ⟨h.1.trans rfl, (h.2.1 rfl).trans ?_⟩
  rfl

/-- Helper: the stuck module is a fixed point of the pass, so no number of
additional passes ever empties the worklist. -/
theorem removeISELs_stuck (fuel : Nat) :
    removeISELs fuel stuckIselModuleInternal [1] = none := by
  induction fuel with
  | zero => rfl
  | succ f ih =>
    have hpass : removeISELsPass stuckIselModuleInternal [1] =
        (stuckIselModuleInternal, [1]) := by decide
    show removeISELs (f + 1) stuckIselModuleInternal [1] = none
    unfold removeISELs
    simp [hpass, ih]

/-- C2: the ISEL dead-global removal loop does not terminate on a module
whose only ISEL keeps two uses that no ISEL erasure can drop — the pass
erases nothing, `next_isels` equals `isels`, and the `while` loop repeats
forever instead of stopping with the surviving ISEL left in place.  No
amount of loop iterations (`fuel`) reaches the loop exit. -/
theorem c2_removeISELs_nontermination :
    ∀ fuel : Nat, removeISELs fuel stuckIselModule [1] = none := by
  intro fuel
  cases fuel with
  | zero => rfl
  | succ f =>
    have hpass : removeISELsPass stuckIselModule [1] =
        (stuckIselModuleInternal, [1]) := by decide
    show removeISELs (f + 1) stuckIselModule [1] = none
    unfold removeISELs
    simp [hpass, removeISELs_stuck]

/-- C8 counterexample: on a module whose single discovered ISEL has more
than one remaining use, the very first pass of the removal loop already
mutates the module (the ISEL's linkage is forced to internal), so the
stage is not a no-op on a module free of dead ISELs. -/
theorem c8_counterexample :
    findISELs { funcs := [{ name := "__remill_basic_block",
                            params := ["Memory", "State", "addr_t"] },
                          { name := "sem",
                            params := ["Memory", "State", "addr_t"] }],
                globals := stuckIselModule } = [1] ∧
    (removeISELsPass stuckIselModule [1]).1 = stuckIselModuleInternal ∧
    stuckIselModuleInternal ≠ stuckIselModule := by
  refine ⟨by decide, by decide, by decide⟩

/-- C8 (amended): running the ISEL-removal fixed point on a module in
which no ISELs are discovered at all is a no-op producing the module
unchanged.  (When ISELs are discovered, the pass mutates their linkage,
and when each keeps more than one use the loop never exits, so the
original claim's other case fails.) -/
theorem c8_amended (m : IModule) (fuel : Nat) (h : findISELs m = []) :
    removeISELs fuel m.globals (findISELs m) = some m.globals := by
  rw [h]
  cases fuel <;> rfl

/-- C8 witness: a module with no `__remill_basic_block` function
discovers no ISELs, and the removal stage returns its globals unchanged. -/
theorem c8_witness :
    removeISELs 0
      (IModule.globals { funcs := [], globals := stuckIselModule })
      (findISELs { funcs := [], globals := stuckIselModule }) =
    some stuckIselModule :=
  c8_amended { funcs := [], globals := stuckIselModule } 0 rfl

/-- Rewriting operands never changes whether an instruction is a call to a
given function: `replaceAllUsesWith` does not touch call targets. -/
theorem isCallTo_mapOperands (name : String) (f : V → V) (c : LInst) :
    LInst.isCallTo name { c with op := c.op.mapOperands f } =
      LInst.isCallTo name c := by
  cases c with
  | mk i op => cases op <;> rfl

/-- Membership in a rewritten stream comes from membership in the
original stream. -/
theorem mem_rauwInsts (old new : V) (insts : List LInst) (c : LInst)
    (hc : c ∈ rauwInsts old new insts) :
    ∃ c0 ∈ insts, c = { c0 with op := c0.op.mapOperands (substV old new) } := by
  obtain ⟨c0, hc0, heq⟩ := List.mem_map.mp hc
  exact ⟨c0, hc0, heq.symm⟩

/-- Every call to `name` in the stream has its id collected by
`CallersOf`. -/
theorem callerIds_complete (name : String) (insts : List LInst) :
    ∀ c ∈ insts, c.isCallTo name = true → c.id ∈ callerIds name insts := by
  intro c hc h
  exact List.mem_map.mpr ⟨c, List.mem_filter.mpr ⟨hc, h⟩, rfl⟩

/-- After the barrier caller loop has consumed a work list that covers
every call to `name`, no call to `name` remains. -/
theorem barrierLoop_no_calls (name : String) :
    ∀ (ids : List Nat) (insts : List LInst),
      (∀ c ∈ insts, c.isCallTo name = true → c.id ∈ ids) →
      ∀ c ∈ barrierLoop ids insts, c.isCallTo name = false := by
  intro ids
  induction ids with
  | nil =>
    intro insts h c hc
    cases hx : c.isCallTo name with
    | false => rfl
    | true => exact absurd (h c hc hx) (List.not_mem_nil c.id)
  | cons i rest ih =>
    intro insts h c hc
    refine ih _ ?_ c hc
    intro c1 hc1 hcall
    have hc2 := List.mem_filter.mp hc1
    obtain ⟨c0, hc0, rfl⟩ := mem_rauwInsts _ _ _ _ hc2.1
    rw [isCallTo_mapOperands] at hcall
    have hid : c0.id ∈ i :: rest := h c0 hc0 hcall
    have hne : c0.id ≠ i := by
      intro hx
      exact absurd hx (by simpa using hc2.2)
    cases List.mem_cons.mp hid with
    | inl hx => exact absurd hx hne
    | inr hx => exact hx

/-- C5: for each of the six ordering-barrier intrinsics: an absent
intrinsic makes `ReplaceBarrier` a silent no-op; one present with a body
aborts with the fatal check message; one present as a declaration has
every call replaced by a pass-through of its memory-state argument and
erased, so no call to the barrier remains.  The last conjunct shows the
pass-through concretely: a consumer of a lowered barrier call ends up
using the barrier's memory-state argument directly. -/
theorem c5_barrier_lowering (name : String) (m : LModule)
    (hname : name ∈ barrierNames) :
    (m.funcs.find? (fun f => f.name = name) = none →
      replaceBarrier name m = Except.ok m) ∧
    (∀ f, m.funcs.find? (fun g => g.name = name) = some f →
      f.isDecl = false →
      replaceBarrier name m =
        Except.error
          ("Cannot lower already implemented memory intrinsic " ++ name)) ∧
    (∀ f, m.funcs.find? (fun g => g.name = name) = some f →
      f.isDecl = true →
      replaceBarrier name m =
        Except.ok { m with insts := barrierLoop (callerIds name m.insts) m.insts } ∧
      ∀ c ∈ barrierLoop (callerIds name m.insts) m.insts,
        c.isCallTo name = false) ∧
    replaceBarrier "__remill_barrier_load_load"
      { funcs := [{ name := "__remill_barrier_load_load", retTy := Ty.memT,
                    isDecl := true }],
        insts := [{ id := 1,
                    op := Op.call "__remill_barrier_load_load" Ty.memT
                            [V.arg 0] },
                  { id := 2, op := Op.call "g" Ty.memT [V.inst 1] }] } =
      Except.ok
        { funcs := [{ name := "__remill_barrier_load_load", retTy := Ty.memT,
                      isDecl := true }],
          insts := [{ id := 2, op := Op.call "g" Ty.memT [V.arg 0] }] } := by
  refine ⟨?_, ?_, ?_, ?_⟩
  · intro h
    unfold replaceBarrier
    rw [h]
  · intro f hf hd
    unfold replaceBarrier
    rw [hf]
    simp [hd]
  · intro f hf hd
    constructor
    · unfold replaceBarrier
      rw [hf]
      simp [hd]
    · exact barrierLoop_no_calls name _ m.insts (callerIds_complete name m.insts)
  · rfl

/-- C5 witness: the three barrier cases at concrete modules — absent
(no-op), present with a body (fatal), present as a declaration (calls
erased). -/
theorem c5_witness :
    replaceBarrier "__remill_barrier_atomic_end"
      { funcs := [], insts := [] } = Except.ok { funcs := [], insts := [] } ∧
    replaceBarrier "__remill_barrier_store_load"
      { funcs := [{ name := "__remill_barrier_store_load", retTy := Ty.memT,
                    isDecl := false }],
        insts := [] } =
      Except.error
        ("Cannot lower already implemented memory intrinsic " ++
         "__remill_barrier_store_load") ∧
    replaceBarrier "__remill_barrier_load_store"
      { funcs := [{ name := "__remill_barrier_load_store", retTy := Ty.memT,
                    isDecl := true }],
        insts := [{ id := 1,
                    op := Op.call "__remill_barrier_load_store" Ty.memT
                            [V.arg 0] }] } =
      Except.ok
        { funcs := [{ name := "__remill_barrier_load_store", retTy := Ty.memT,
                      isDecl := true }],
          insts := [] } :=
  ⟨(c5_barrier_lowering "__remill_barrier_atomic_end"
      { funcs := [], insts := [] } (by decide)).1 rfl,
   (c5_barrier_lowering "__remill_barrier_store_load"
      { funcs := [{ name := "__remill_barrier_store_load", retTy := Ty.memT,
                    isDecl := false }], insts := [] } (by decide)).2.1
      { name := "__remill_barrier_store_load", retTy := Ty.memT,
        isDecl := false } rfl rfl,
   ((c5_barrier_lowering "__remill_barrier_load_store"
      { funcs := [{ name := "__remill_barrier_load_store", retTy := Ty.memT,
                    isDecl := true }],
        insts := [{ id := 1,
                    op := Op.call "__remill_barrier_load_store" Ty.memT
                            [V.arg 0] }] } (by decide)).2.2.1
      { name := "__remill_barrier_load_store", retTy := Ty.memT,
        isDecl := true } rfl rfl).1.trans (by rfl)⟩

/-- Helper for the read/write lowering proofs: membership in the rewritten
stream after one caller step comes either from a freshly inserted
instruction (never a call) or from an operand-rewritten original
instruction. -/
theorem lowerStep_calls (name : String) (newIs : List LInst) (old new : V)
    (i : Nat) (ids0 : List Nat) (insts : List LInst)
    (hnew : ∀ c ∈ newIs, LInst.isCallTo name c = false)
    (h : ∀ c ∈ insts, LInst.isCallTo name c = true → c.id ∈ ids0) :
    ∀ c ∈ rauwInsts old new
        (insts.flatMap (fun c => if c.id = i then newIs ++ [c] else [c])),
      LInst.isCallTo name c = true → c.id ∈ ids0 := by
  intro c hc hcall
  obtain ⟨c0, hc0, rfl⟩ := mem_rauwInsts _ _ _ _ hc
  rw [isCallTo_mapOperands] at hcall
  obtain ⟨c1, hc1, hin⟩ := List.mem_flatMap.mp hc0
  by_cases hid : c1.id = i
  · rw [if_pos hid] at hin
    rcases List.mem_append.mp hin with hx | hx
    · exact absurd hcall (by simp [hnew c0 hx])
    · have heq : c0 = c1 := by simpa using hx
      subst heq
      exact h c0 hc1 hcall
  · rw [if_neg hid] at hin
    have heq : c0 = c1 := by simpa using hin
    subst heq
    exact h c0 hc1 hcall

/-- Through the whole caller fold of `ReplaceMemReadOp`, every surviving
call to `name` is one of the originally collected callers: the freshly
built `inttoptr`, `load` and `fptrunc` instructions are not calls and
operand rewriting does not create calls. -/
theorem lowerReadFold_calls (name : String) (valTy retTy : Ty)
    (ids0 : List Nat) :
    ∀ (ids : List Nat) (insts : List LInst) (next : Nat),
      (∀ c ∈ insts, LInst.isCallTo name c = true → c.id ∈ ids0) →
      ∀ c ∈ (List.foldl (lowerReadOne valTy retTy) (insts, next) ids).1,
        LInst.isCallTo name c = true → c.id ∈ ids0 := by
  intro ids
  induction ids with
  | nil => intro insts next h; simpa using h
  | cons i rest ih =>
    intro insts next h
    rw [List.foldl_cons]
    refine ih (lowerReadOne valTy retTy (insts, next) i).1
      (lowerReadOne valTy retTy (insts, next) i).2 ?_
    have hnew : ∀ c ∈ (if valTy = Ty.f80 then
        [({ id := next, op := Op.intToPtr (Ty.ptr valTy) (getArg insts i 1) } : LInst),
         { id := next + 1, op := Op.load valTy (V.inst next) },
         { id := next + 2, op := Op.fptrunc retTy (V.inst (next + 1)) }]
      else
        [({ id := next, op := Op.intToPtr (Ty.ptr valTy) (getArg insts i 1) } : LInst),
         { id := next + 1, op := Op.load valTy (V.inst next) }]),
        LInst.isCallTo name c = false := by
      intro c hc
      by_cases hf : valTy = Ty.f80
      · rw [if_pos hf] at hc
        simp only [List.mem_cons, List.not_mem_nil, or_false] at hc
        rcases hc with rfl | rfl | rfl <;> rfl
      · rw [if_neg hf] at hc
        simp only [List.mem_cons, List.not_mem_nil, or_false] at hc
        rcases hc with rfl | rfl <;> rfl
    exact lowerStep_calls name _ (V.inst i)
      (if valTy = Ty.f80 then V.inst (next + 2) else V.inst (next + 1))
      i ids0 insts hnew h

/-- The analogue of `lowerReadFold_calls` for `ReplaceMemWriteOp`. -/
theorem lowerWriteFold_calls (name : String) (valTy : Ty)
    (ids0 : List Nat) :
    ∀ (ids : List Nat) (insts : List LInst) (next : Nat),
      (∀ c ∈ insts, LInst.isCallTo name c = true → c.id ∈ ids0) →
      ∀ c ∈ (List.foldl (lowerWriteOne valTy) (insts, next) ids).1,
        LInst.isCallTo name c = true → c.id ∈ ids0 := by
  intro ids
  induction ids with
  | nil => intro insts next h; simpa using h
  | cons i rest ih =>
    intro insts next h
    rw [List.foldl_cons]
    refine ih (lowerWriteOne valTy (insts, next) i).1
      (lowerWriteOne valTy (insts, next) i).2 ?_
    have hnew : ∀ c ∈ (if valTy = Ty.f80 then
        [({ id := next, op := Op.intToPtr (Ty.ptr valTy) (getArg insts i 1) } : LInst),
         { id := next + 1, op := Op.fpext valTy (getArg insts i 2) },
         { id := next + 2, op := Op.store (V.inst (next + 1)) (V.inst next) }]
      else
        [({ id := next, op := Op.intToPtr (Ty.ptr valTy) (getArg insts i 1) } : LInst),
         { id := next + 1, op := Op.store (getArg insts i 2) (V.inst next) }]),
        LInst.isCallTo name c = false := by
      intro c hc
      by_cases hf : valTy = Ty.f80
      · rw [if_pos hf] at hc
        simp only [List.mem_cons, List.not_mem_nil, or_false] at hc
        rcases hc with rfl | rfl | rfl <;> rfl
      · rw [if_neg hf] at hc
        simp only [List.mem_cons, List.not_mem_nil, or_false] at hc
        rcases hc with rfl | rfl <;> rfl
    exact lowerStep_calls name _ (V.inst i) (getArg insts i 0)
      i ids0 insts hnew h

/-- Unfolding `RemoveFunction`: the instruction stream is unchanged and
the symbol disappears exactly when it had no remaining uses. -/
theorem removeFunctionIfUnused_spec (name : String) (m : LModule) :
    (removeFunctionIfUnused name m).insts = m.insts ∧
    (removeFunctionIfUnused name m).funcs =
      (if numFuncUses name m.insts = 0 then
        m.funcs.filter (fun f => f.name ≠ name)
      else m.funcs) := by
  unfold removeFunctionIfUnused
  by_cases h : numFuncUses name m.insts = 0 <;> simp [h]

/-- Unfolding `ReplaceMemReadOp` in the declared-intrinsic case. -/
theorem replaceMemReadOp_decl (name : String) (valTy : Ty) (mn : LModule × Nat)
    (f : LFunc) (hf : mn.1.funcs.find? (fun g => g.name = name) = some f)
    (hd : f.isDecl = true) :
    replaceMemReadOp name valTy mn =
      Except.ok
        (removeFunctionIfUnused name
          { funcs := mn.1.funcs,
            insts :=
              ((callerIds name mn.1.insts).foldl (lowerReadOne valTy f.retTy)
                  (mn.1.insts, mn.2)).1.filter
                (fun c => ¬ (callerIds name mn.1.insts).contains c.id) },
         ((callerIds name mn.1.insts).foldl (lowerReadOne valTy f.retTy)
             (mn.1.insts, mn.2)).2) := by
  unfold replaceMemReadOp
  simp only [hf, hd]
  simp

/-- Unfolding `ReplaceMemWriteOp` in the declared-intrinsic case. -/
theorem replaceMemWriteOp_decl (name : String) (valTy : Ty) (mn : LModule × Nat)
    (f : LFunc) (hf : mn.1.funcs.find? (fun g => g.name = name) = some f)
    (hd : f.isDecl = true) :
    replaceMemWriteOp name valTy mn =
      Except.ok
        (removeFunctionIfUnused name
          { funcs := mn.1.funcs,
            insts :=
              ((callerIds name mn.1.insts).foldl (lowerWriteOne valTy)
                  (mn.1.insts, mn.2)).1.filter
                (fun c => ¬ (callerIds name mn.1.insts).contains c.id) },
         ((callerIds name mn.1.insts).foldl (lowerWriteOne valTy)
             (mn.1.insts, mn.2)).2) := by
  unfold replaceMemWriteOp
  simp only [hf, hd]
  simp

/-- C4 counterexample: `LowerMemOps` lowers seven memory-read intrinsics
and seven memory-write intrinsics (1/2/4/8-byte integers and 32/64/80-bit
floats), not eight of each as the claim counts. -/
theorem c4_counterexample :
    (memOpsOrder.filter (fun e => e.1)).length = 7 ∧
    (memOpsOrder.filter (fun e => e.1)).length ≠ 8 ∧
    (memOpsOrder.filter (fun e => !e.1)).length = 7 ∧
    (memOpsOrder.filter (fun e => !e.1)).length ≠ 8 := by
  refine ⟨by decide, by decide, by decide, by decide⟩

/-- C4 (amended to seven read and seven write intrinsics): an absent
memory intrinsic is skipped; one with a body is a fatal error; a declared
one has every call lowered so that no call to it remains, and its
declaration is removed exactly when it then has zero remaining uses.  The
four closed conjuncts show the lowered shape concretely: a read becomes a
single `load` at the call's integer address argument reinterpreted as a
pointer and the call's result is replaced by the loaded value; an 80-bit
read appends an `fptrunc` to the intrinsic's return type; a write becomes
a single `store` at that address and the call is replaced by its
memory-state argument; an 80-bit write extends the stored value to 80
bits first.  In each instance the lowered calls are erased and the
now-unused declaration is removed. -/
theorem c4_memory_intrinsic_lowering :
    (∀ (name : String) (valTy : Ty) (mn : LModule × Nat),
      mn.1.funcs.find? (fun g => g.name = name) = none →
        replaceMemReadOp name valTy mn = Except.ok mn ∧
        replaceMemWriteOp name valTy mn = Except.ok mn) ∧
    (∀ (name : String) (valTy : Ty) (mn : LModule × Nat) (f : LFunc),
      mn.1.funcs.find? (fun g => g.name = name) = some f →
      f.isDecl = false →
        replaceMemReadOp name valTy mn =
          Except.error ("Cannot lower already implemented memory intrinsic " ++ name) ∧
        replaceMemWriteOp name valTy mn =
          Except.error ("Cannot lower already implemented memory intrinsic " ++ name)) ∧
    (∀ (name : String) (valTy : Ty) (mn : LModule × Nat) (f : LFunc),
      mn.1.funcs.find? (fun g => g.name = name) = some f →
      f.isDecl = true →
        ∃ m2 k, replaceMemReadOp name valTy mn = Except.ok (m2, k) ∧
          (∀ c ∈ m2.insts, LInst.isCallTo name c = false) ∧
          m2.funcs = (if numFuncUses name m2.insts = 0 then
              mn.1.funcs.filter (fun g => g.name ≠ name)
            else mn.1.funcs)) ∧
    (∀ (name : String) (valTy : Ty) (mn : LModule × Nat) (f : LFunc),
      mn.1.funcs.find? (fun g => g.name = name) = some f →
      f.isDecl = true →
        ∃ m2 k, replaceMemWriteOp name valTy mn = Except.ok (m2, k) ∧
          (∀ c ∈ m2.insts, LInst.isCallTo name c = false) ∧
          m2.funcs = (if numFuncUses name m2.insts = 0 then
              mn.1.funcs.filter (fun g => g.name ≠ name)
            else mn.1.funcs)) ∧
    replaceMemReadOp "__remill_read_memory_32" (Ty.i 32)
      ({ funcs := [{ name := "__remill_read_memory_32", retTy := Ty.i 32,
                     isDecl := true }],
         insts := [{ id := 1, op := Op.call "__remill_read_memory_32" (Ty.i 32)
                       [V.arg 0, V.intConst 16400] },
                   { id := 2, op := Op.genericOp (Ty.i 32) [V.inst 1] }] }, 10) =
      Except.ok
        ({ funcs := [],
           insts := [{ id := 10, op := Op.intToPtr (Ty.ptr (Ty.i 32))
                         (V.intConst 16400) },
                     { id := 11, op := Op.load (Ty.i 32) (V.inst 10) },
                     { id := 2, op := Op.genericOp (Ty.i 32) [V.inst 11] }] },
         12) ∧
    replaceMemReadOp "__remill_read_memory_f80" Ty.f80
      ({ funcs := [{ name := "__remill_read_memory_f80", retTy := Ty.f64,
                     isDecl := true }],
         insts := [{ id := 1, op := Op.call "__remill_read_memory_f80" Ty.f64
                       [V.arg 0, V.intConst 16400] },
                   { id := 2, op := Op.genericOp Ty.f64 [V.inst 1] }] }, 10) =
      Except.ok
        ({ funcs := [],
           insts := [{ id := 10, op := Op.intToPtr (Ty.ptr Ty.f80)
                         (V.intConst 16400) },
                     { id := 11, op := Op.load Ty.f80 (V.inst 10) },
                     { id := 12, op := Op.fptrunc Ty.f64 (V.inst 11) },
                     { id := 2, op := Op.genericOp Ty.f64 [V.inst 12] }] },
         13) ∧
    replaceMemWriteOp "__remill_write_memory_64" (Ty.i 64)
      ({ funcs := [{ name := "__remill_write_memory_64", retTy := Ty.memT,
                     isDecl := true }],
         insts := [{ id := 1, op := Op.call "__remill_write_memory_64" Ty.memT
                       [V.arg 0, V.intConst 16400, V.arg 1] },
                   { id := 2, op := Op.call "g" Ty.memT [V.inst 1] }] }, 10) =
      Except.ok
        ({ funcs := [],
           insts := [{ id := 10, op := Op.intToPtr (Ty.ptr (Ty.i 64))
                         (V.intConst 16400) },
                     { id := 11, op := Op.store (V.arg 1) (V.inst 10) },
                     { id := 2, op := Op.call "g" Ty.memT [V.arg 0] }] },
         12) ∧
    replaceMemWriteOp "__remill_write_memory_f80" Ty.f80
      ({ funcs := [{ name := "__remill_write_memory_f80", retTy := Ty.memT,
                     isDecl := true }],
         insts := [{ id := 1, op := Op.call "__remill_write_memory_f80" Ty.memT
                       [V.arg 0, V.intConst 16400, V.arg 1] },
                   { id := 2, op := Op.call "g" Ty.memT [V.inst 1] }] }, 10) =
      Except.ok
        ({ funcs := [],
           insts := [{ id := 10, op := Op.intToPtr (Ty.ptr Ty.f80)
                         (V.intConst 16400) },
                     { id := 11, op := Op.fpext Ty.f80 (V.arg 1) },
                     { id := 12, op := Op.store (V.inst 11) (V.inst 10) },
                     { id := 2, op := Op.call "g" Ty.memT [V.arg 0] }] },
         13) := by
  refine ⟨?_, ?_, ?_, ?_, by rfl, by rfl, by rfl, by rfl⟩
  · intro name valTy mn h
    constructor
    · unfold replaceMemReadOp
      simp only [h]
    · unfold replaceMemWriteOp
      simp only [h]
  · intro name valTy mn f hf hd
    constructor
    · unfold replaceMemReadOp
      simp only [hf, hd]
      simp
    · unfold replaceMemWriteOp
      simp only [hf, hd]
      simp
  · intro name valTy mn f hf hd
    refine ⟨_, _, replaceMemReadOp_decl name valTy mn f hf hd, ?_, ?_⟩
    · rw [(removeFunctionIfUnused_spec name _).1]
      intro c hc
      cases hx : LInst.isCallTo name c with
      | false => rfl
      | true =>
        exfalso
        have h1 := List.mem_filter.mp hc
        have h2 := lowerReadFold_calls name valTy f.retTy
          (callerIds name mn.1.insts) (callerIds name mn.1.insts)
          mn.1.insts mn.2 (callerIds_complete name mn.1.insts) c h1.1 hx
        have h3 : ¬ (callerIds name mn.1.insts).contains c.id = true := by
          simpa using h1.2
        exact h3 (List.elem_iff.mpr h2)
    · rw [(removeFunctionIfUnused_spec name _).2,
          (removeFunctionIfUnused_spec name _).1]
  · intro name valTy mn f hf hd
    refine ⟨_, _, replaceMemWriteOp_decl name valTy mn f hf hd, ?_, ?_⟩
    · rw [(removeFunctionIfUnused_spec name _).1]
      intro c hc
      cases hx : LInst.isCallTo name c with
      | false => rfl
      | true =>
        exfalso
        have h1 := List.mem_filter.mp hc
        have h2 := lowerWriteFold_calls name valTy
          (callerIds name mn.1.insts) (callerIds name mn.1.insts)
          mn.1.insts mn.2 (callerIds_complete name mn.1.insts) c h1.1 hx
        have h3 : ¬ (callerIds name mn.1.insts).contains c.id = true := by
          simpa using h1.2
        exact h3 (List.elem_iff.mpr h2)
    · rw [(removeFunctionIfUnused_spec name _).2,
          (removeFunctionIfUnused_spec name _).1]

/-- C4 witness: the hypotheses of each quantified conjunct discharged at
concrete modules — an absent intrinsic, one with a body, and declared
read and write intrinsics. -/
theorem c4_witness :
    (replaceMemReadOp "__remill_read_memory_8" (Ty.i 8)
        ({ funcs := [], insts := [] }, 0) =
      Except.ok ({ funcs := [], insts := [] }, 0)) ∧
    (replaceMemWriteOp "__remill_write_memory_8" (Ty.i 8)
        ({ funcs := [{ name := "__remill_write_memory_8", retTy := Ty.memT,
                       isDecl := false }], insts := [] }, 0) =
      Except.error
        ("Cannot lower already implemented memory intrinsic " ++
         "__remill_write_memory_8")) ∧
    (∃ m2 k, replaceMemReadOp "__remill_read_memory_16" (Ty.i 16)
        ({ funcs := [{ name := "__remill_read_memory_16", retTy := Ty.i 16,
                       isDecl := true }], insts := [] }, 0) =
        Except.ok (m2, k) ∧
      (∀ c ∈ m2.insts, LInst.isCallTo "__remill_read_memory_16" c = false) ∧
      m2.funcs = (if numFuncUses "__remill_read_memory_16" m2.insts = 0 then
          List.filter (fun g => g.name ≠ "__remill_read_memory_16")
            [{ name := "__remill_read_memory_16", retTy := Ty.i 16,
               isDecl := true }]
        else [{ name := "__remill_read_memory_16", retTy := Ty.i 16,
                isDecl := true }])) ∧
    (∃ m2 k, replaceMemWriteOp "__remill_write_memory_16" (Ty.i 16)
        ({ funcs := [{ name := "__remill_write_memory_16", retTy := Ty.memT,
                       isDecl := true }], insts := [] }, 0) =
        Except.ok (m2, k) ∧
      (∀ c ∈ m2.insts, LInst.isCallTo "__remill_write_memory_16" c = false) ∧
      m2.funcs = (if numFuncUses "__remill_write_memory_16" m2.insts = 0 then
          List.filter (fun g => g.name ≠ "__remill_write_memory_16")
            [{ name := "__remill_write_memory_16", retTy := Ty.memT,
               isDecl := true }]
        else [{ name := "__remill_write_memory_16", retTy := Ty.memT,
                isDecl := true }])) :=
  ⟨(c4_memory_intrinsic_lowering.1 "__remill_read_memory_8" (Ty.i 8)
      ({ funcs := [], insts := [] }, 0) rfl).1,
   (c4_memory_intrinsic_lowering.2.1 "__remill_write_memory_8" (Ty.i 8)
      ({ funcs := [{ name := "__remill_write_memory_8", retTy := Ty.memT,
                     isDecl := false }], insts := [] }, 0)
      { name := "__remill_write_memory_8", retTy := Ty.memT, isDecl := false }
      rfl rfl).2,
   c4_memory_intrinsic_lowering.2.2.1 "__remill_read_memory_16" (Ty.i 16)
      ({ funcs := [{ name := "__remill_read_memory_16", retTy := Ty.i 16,
                     isDecl := true }], insts := [] }, 0)
      { name := "__remill_read_memory_16", retTy := Ty.i 16, isDecl := true }
      rfl rfl,
   c4_memory_intrinsic_lowering.2.2.2.1 "__remill_write_memory_16" (Ty.i 16)
      ({ funcs := [{ name := "__remill_write_memory_16", retTy := Ty.memT,
                     isDecl := true }], insts := [] }, 0)
      { name := "__remill_write_memory_16", retTy := Ty.memT, isDecl := true }
      rfl rfl⟩

/-- Operand rewriting preserves the absence of calls to a function. -/
theorem rauwInsts_calls_false (name : String) (old new : V) (insts : List LInst)
    (h : ∀ c ∈ insts, LInst.isCallTo name c = false) :
    ∀ c ∈ rauwInsts old new insts, LInst.isCallTo name c = false := by
  intro c hc
  obtain ⟨c0, hc0, rfl⟩ := mem_rauwInsts _ _ _ _ hc
  rw [isCallTo_mapOperands]
  exact h c0 hc0

/-- After the first loop of `ReplaceUndefIntrinsic` has consumed a work
list covering every call to `name`, no call to `name` remains. -/
theorem replaceCallsLoop_no_calls (name : String) (retTy : Ty) :
    ∀ (ids : List Nat) (insts : List LInst) (work : List Nat),
      (∀ c ∈ insts, LInst.isCallTo name c = true → c.id ∈ ids) →
      ∀ c ∈ (replaceCallsLoop retTy ids insts work).1,
        LInst.isCallTo name c = false := by
  intro ids
  induction ids with
  | nil =>
    intro insts work h c hc
    cases hx : LInst.isCallTo name c with
    | false => rfl
    | true => exact absurd (h c hc hx) (List.not_mem_nil c.id)
  | cons i rest ih =>
    intro insts work h c hc
    refine ih _ _ ?_ c hc
    intro c1 hc1 hcall
    have hc2 := List.mem_filter.mp hc1
    obtain ⟨c0, hc0, rfl⟩ := mem_rauwInsts _ _ _ _ hc2.1
    rw [isCallTo_mapOperands] at hcall
    have hid := h c0 hc0 hcall
    have hne : c0.id ≠ i := by simpa using hc2.2
    cases List.mem_cons.mp hid with
    | inl hx => exact absurd hx hne
    | inr hx => exact hx

/-- Processing one propagation work item preserves the absence of calls. -/
theorem propagateOne_calls_false (name : String)
    (acc : List LInst × List Nat × List Nat) (i : Nat)
    (h : ∀ c ∈ acc.1, LInst.isCallTo name c = false) :
    ∀ c ∈ (propagateOne acc i).1, LInst.isCallTo name c = false := by
  intro c hc
  unfold propagateOne at hc
  split at hc
  · split at hc
    · exact rauwInsts_calls_false name _ _ acc.1 h c hc
    · split at hc
      · exact h c hc
      · exact h c hc
  · exact h c hc

/-- A whole propagation pass preserves the absence of calls. -/
theorem propagateFold_calls_false (name : String) :
    ∀ (work : List Nat) (acc : List LInst × List Nat × List Nat),
      (∀ c ∈ acc.1, LInst.isCallTo name c = false) →
      ∀ c ∈ (work.foldl propagateOne acc).1, LInst.isCallTo name c = false := by
  intro work
  induction work with
  | nil => intro acc h; simpa using h
  | cons i rest ih =>
    intro acc h
    rw [List.foldl_cons]
    exact ih _ (propagateOne_calls_false name acc i h)

/-- The whole propagation loop preserves the absence of calls. -/
theorem propagateUndef_calls_false (name : String) :
    ∀ (fuel : Nat) (insts : List LInst) (work dead : List Nat),
      (∀ c ∈ insts, LInst.isCallTo name c = false) →
      ∀ c ∈ (propagateUndef fuel insts work dead).1,
        LInst.isCallTo name c = false := by
  intro fuel
  induction fuel with
  | zero => intro insts work dead h; simpa using h
  | succ f ih =>
    intro insts work dead h
    unfold propagateUndef
    by_cases hw : work.isEmpty
    · simpa [hw] using h
    · simp only [hw, Bool.false_eq_true, if_false]
      exact ih _ _ _ (propagateFold_calls_false name work (insts, [], dead) h)

/-- C6: `ReplaceUndefIntrinsic` leaves no call to the processed intrinsic
in the stream (every call is replaced and erased); the declaration is
afterwards removed exactly when it has no remaining uses; and, concretely,
running `RemoveUndefFuncCalls` on a module where an 8-bit undefined value
flows through a cast and a comparison into one store, while a second
store depends on the cast output only through a non-cast/non-compare
instruction, erases the first store, preserves the second, replaces the
propagated operands by undefined values of the consuming instructions'
result types, erases the call, and removes the now-unused declaration. -/
theorem c6_undef_value_elimination :
    (∀ (f : LFunc) (insts : List LInst),
      ∀ c ∈ replaceUndefIntrinsic f insts, LInst.isCallTo f.name c = false) ∧
    (∀ (name : String) (m : LModule),
      (numFuncUses name m.insts = 0 →
        (removeFunctionIfUnused name m).funcs =
          m.funcs.filter (fun g => g.name ≠ name)) ∧
      (numFuncUses name m.insts ≠ 0 →
        (removeFunctionIfUnused name m).funcs = m.funcs)) ∧
    removeUndefFuncCalls
      { funcs := [{ name := "__remill_undefined_8", retTy := Ty.i 8,
                    isDecl := true }],
        insts := [{ id := 1, op := Op.call "__remill_undefined_8" (Ty.i 8) [] },
                  { id := 2, op := Op.bitcast (Ty.i 8) (V.inst 1) },
                  { id := 3, op := Op.icmp (V.inst 2) (V.intConst 0) },
                  { id := 4, op := Op.store (V.inst 3) (V.arg 5) },
                  { id := 5, op := Op.genericOp (Ty.i 8) [V.inst 2] },
                  { id := 6, op := Op.store (V.inst 5) (V.arg 6) }] } =
      { funcs := [],
        insts := [{ id := 2, op := Op.bitcast (Ty.i 8) (V.undef (Ty.i 8)) },
                  { id := 3, op := Op.icmp (V.undef (Ty.i 8)) (V.intConst 0) },
                  { id := 5, op := Op.genericOp (Ty.i 8) [V.undef (Ty.i 8)] },
                  { id := 6, op := Op.store (V.inst 5) (V.arg 6) }] } := by
  refine ⟨?_, ?_, by rfl⟩
  · intro f insts c hc
    unfold replaceUndefIntrinsic at hc
    have hc1 := (List.mem_filter.mp hc).1
    exact propagateUndef_calls_false f.name _ _ _ _
      (replaceCallsLoop_no_calls f.name f.retTy _ insts []
        (callerIds_complete f.name insts)) c hc1
  · intro name m
    have h := removeFunctionIfUnused_spec name m
    constructor
    · intro h0
      rw [h.2, if_pos h0]
    · intro h0
      rw [h.2, if_neg h0]

/-- C6 witness: the declaration-removal conjunct discharged at concrete
modules, one with zero remaining uses and one with a remaining use. -/
theorem c6_witness :
    (removeFunctionIfUnused "__remill_undefined_32"
        { funcs := [{ name := "__remill_undefined_32", retTy := Ty.i 32,
                      isDecl := true }],
          insts := [] }).funcs = [] ∧
    (removeFunctionIfUnused "__remill_undefined_32"
        { funcs := [{ name := "__remill_undefined_32", retTy := Ty.i 32,
                      isDecl := true }],
          insts := [{ id := 1,
                      op := Op.genericOp (Ty.i 64)
                              [V.globalRef "__remill_undefined_32"] }] }).funcs =
      [{ name := "__remill_undefined_32", retTy := Ty.i 32, isDecl := true }] :=
  ⟨((c6_undef_value_elimination.2.1 "__remill_undefined_32"
      { funcs := [{ name := "__remill_undefined_32", retTy := Ty.i 32,
                    isDecl := true }], insts := [] }).1 (by decide)).trans
     (by decide),
   ((c6_undef_value_elimination.2.1 "__remill_undefined_32"
      { funcs := [{ name := "__remill_undefined_32", retTy := Ty.i 32,
                    isDecl := true }],
        insts := [{ id := 1,
                    op := Op.genericOp (Ty.i 64)
                            [V.globalRef "__remill_undefined_32"] }] }).2
      (by decide)).trans (by decide)⟩

end Mcsema
